import Mathlib

/-!
Shallow embedding of the invoice-reconciliation core of the inventory-hub
repository.  JavaScript numbers are modelled as exact rationals; the rounded
results of Math.floor / Math.ceil / Math.round are integers.  String-typed
enumeration fields (tax types, rounding modes, calculation types) are kept as
Lean strings because the runtime values come from JSON and the code matches on
them with defaults for unknown values.
-/

namespace InventoryHub

/-! ## Rounding primitives (src/lib/parsers/base-parser.ts, applyRounding) -/

/-- Model of JavaScript Math.floor on a (finite) number. -/
def jsFloor (v : ℚ) : ℤ := ⌊v⌋

/-- Model of JavaScript Math.ceil on a (finite) number. -/
def jsCeil (v : ℚ) : ℤ := ⌈v⌉

/-- Model of JavaScript Math.round: floor of v + 1/2, i.e. ties go toward
positive infinity (Math.round(-1.5) is -1 in JavaScript). -/
def jsMathRound (v : ℚ) : ℤ := ⌊v + 1 / 2⌋

/-- Model of `applyRounding(value, mode)` from base-parser.ts: a switch on the
mode string whose default case is floor. -/
def applyRounding (value : ℚ) (mode : String) : ℤ :=
  if mode = "floor" then jsFloor value
  else if mode = "ceil" then jsCeil value
  else if mode = "round" then jsMathRound value
  else jsFloor value

/-! ## Supplier configuration (src/lib/parsers/base-parser.ts) -/

/-- Fee entry of a SupplierConfig: an amount with a tax type
("included" or "excluded"). -/
structure FeeSetting where
  amount : ℚ
  taxType : String
  deriving DecidableEq

/-- Rounding configuration: calculation type ("per_item", "subtotal", "total")
and rounding mode ("floor", "ceil", "round"), both kept as strings since they
arrive from JSON. -/
structure RoundingConfig where
  calculationType : String
  roundingMode : String
  deriving DecidableEq

/-- SupplierConfig from base-parser.ts.  `taxRate` and `roundingConfig` are
optional: the calculator reads them with `?? 0.1` and a `|| default`
respectively, so absent values are representable. -/
structure SupplierConfig where
  productPriceTaxType : String
  commissionTaxType : String
  participationFee : Option FeeSetting
  shippingFee : Option FeeSetting
  taxRate : Option ℚ
  roundingConfig : Option RoundingConfig
  deriving DecidableEq

/-- Line item as consumed by `calculateInvoiceAmount`: purchase price and
commission (the function reads `product.commission || 0`, which on a number is
the number itself). -/
structure CalcItem where
  purchasePrice : ℚ
  commission : ℚ
  deriving DecidableEq

/-- Model of `calculateInvoiceAmount` from base-parser.ts: three calculation
orders selected by the rounding configuration, whose absence defaults to
calculation type "total" with rounding mode "floor"; the tax rate defaults to
0.1 when absent. -/
def calculateInvoiceAmount (products : List CalcItem) (config : SupplierConfig)
    (participationFee : ℚ) (participationFeeTaxType : String)
    (shippingFee : ℚ) (shippingFeeTaxType : String) : ℤ :=
  let taxRate : ℚ := config.taxRate.getD (1 / 10)
  let rc : RoundingConfig := config.roundingConfig.getD ⟨"total", "floor"⟩
  let calculationType := rc.calculationType
  let roundingMode := rc.roundingMode
  if calculationType = "per_item" then
    let total : ℚ := products.foldl (fun acc product =>
      let itemPrice : ℚ :=
        if config.productPriceTaxType = "excluded" then
          (applyRounding (product.purchasePrice * (1 + taxRate)) roundingMode : ℚ)
        else product.purchasePrice
      let itemCommission : ℚ :=
        if config.commissionTaxType = "excluded" then
          (applyRounding (product.commission * (1 + taxRate)) roundingMode : ℚ)
        else product.commission
      acc + (itemPrice + itemCommission)) 0
    let participationFeeWithTax : ℚ :=
      if participationFeeTaxType = "excluded" then
        (applyRounding (participationFee * (1 + taxRate)) roundingMode : ℚ)
      else participationFee
    let shippingFeeWithTax : ℚ :=
      if shippingFeeTaxType = "excluded" then
        (applyRounding (shippingFee * (1 + taxRate)) roundingMode : ℚ)
      else shippingFee
    applyRounding (total + participationFeeWithTax + shippingFeeWithTax) roundingMode
  else if calculationType = "subtotal" then
    let productSubtotal : ℚ :=
      products.foldl (fun acc p => acc + p.purchasePrice) 0
    let commissionSubtotal : ℚ :=
      products.foldl (fun acc p => acc + p.commission) 0
    let productSubtotal : ℚ :=
      if config.productPriceTaxType = "excluded" then
        (applyRounding (productSubtotal * (1 + taxRate)) roundingMode : ℚ)
      else productSubtotal
    let commissionSubtotal : ℚ :=
      if config.commissionTaxType = "excluded" then
        (applyRounding (commissionSubtotal * (1 + taxRate)) roundingMode : ℚ)
      else commissionSubtotal
    let participationFeeWithTax : ℚ :=
      if participationFeeTaxType = "excluded" then
        (applyRounding (participationFee * (1 + taxRate)) roundingMode : ℚ)
      else participationFee
    let shippingFeeWithTax : ℚ :=
      if shippingFeeTaxType = "excluded" then
        (applyRounding (shippingFee * (1 + taxRate)) roundingMode : ℚ)
      else shippingFee
    applyRounding
      (productSubtotal + commissionSubtotal + participationFeeWithTax + shippingFeeWithTax)
      roundingMode
  else
    let productSubtotal : ℚ :=
      products.foldl (fun acc p => acc + p.purchasePrice) 0
    let commissionSubtotal : ℚ :=
      products.foldl (fun acc p => acc + p.commission) 0
    let productSubtotal : ℚ :=
      if config.productPriceTaxType = "excluded" then
        productSubtotal * (1 + taxRate)
      else productSubtotal
    let commissionSubtotal : ℚ :=
      if config.commissionTaxType = "excluded" then
        commissionSubtotal * (1 + taxRate)
      else commissionSubtotal
    let participationFeeWithTax : ℚ :=
      if participationFeeTaxType = "excluded" then
        participationFee * (1 + taxRate)
      else participationFee
    let shippingFeeWithTax : ℚ :=
      if shippingFeeTaxType = "excluded" then
        shippingFee * (1 + taxRate)
      else shippingFee
    applyRounding
      (productSubtotal + commissionSubtotal + participationFeeWithTax + shippingFeeWithTax)
      roundingMode

/-! ## Reconciliation verdict, import path
(src/app/api/sync/import/folderId/route.ts, POST) -/

/-- Persisted product row as read back from the database by the two
recomputation sites: purchase price and a nullable commission
(both code paths read `Number(product.commission || 0)`). -/
structure ProductRow where
  purchasePrice : ℚ
  commission : Option ℚ
  deriving DecidableEq

/-- System amount computed inline by the POST import handler
(route.ts lines 466-516): sums of raw prices and commissions, tax applied by
multiplication when the tax type is "excluded", fees taken from the supplier
config, and a single Math.floor at the end.  The tax rate is read with
`?? 0.1`. -/
def postSystemAmount (products : List ProductRow) (c : SupplierConfig) : ℤ :=
  let taxRate : ℚ := c.taxRate.getD (1 / 10)
  let productTotal : ℚ :=
    products.foldl (fun acc p => acc + p.purchasePrice) 0
  let commissionTotal : ℚ :=
    products.foldl (fun acc p => acc + p.commission.getD 0) 0
  let productTotal : ℚ :=
    if c.productPriceTaxType = "excluded" then productTotal * (1 + taxRate)
    else productTotal
  let commissionTotal : ℚ :=
    if c.commissionTaxType = "excluded" then commissionTotal * (1 + taxRate)
    else commissionTotal
  let participationFee : ℚ :=
    match c.participationFee with
    | some f => if f.taxType = "excluded" then f.amount * (1 + taxRate) else f.amount
    | none => 0
  let shippingFee : ℚ :=
    match c.shippingFee with
    | some f => if f.taxType = "excluded" then f.amount * (1 + taxRate) else f.amount
    | none => 0
  jsFloor (productTotal + commissionTotal + participationFee + shippingFee)

/-- Reconciliation fields persisted on the import-log record.  All computed
values here are finite rationals, so the isNaN / isFinite persistence guards of
the routes always pass and the persisted fields equal the computed ones. -/
structure ImportVerdict where
  invoiceAmount : Option ℚ
  systemAmount : Option ℤ
  amountDifference : Option ℚ
  hasAmountMismatch : Bool
  deriving DecidableEq

/-- Verdict portion of the POST import handler (route.ts lines 458-539 plus the
initialisation at lines 63-72): with no supplier config nothing is computed and
the initial false mismatch flag is persisted; with a config the system amount is
computed, and the claimed amount is compared when present, while its absence
sets the mismatch flag unconditionally. -/
def postVerdict (invoiceAmount : Option ℚ) (config : Option SupplierConfig)
    (products : List ProductRow) : ImportVerdict :=
  match config with
  | none => ⟨invoiceAmount, none, none, false⟩
  | some c =>
    let systemAmount := postSystemAmount products c
    match invoiceAmount with
    | some inv =>
      let amountDifference : ℚ := |inv - (systemAmount : ℚ)|
      ⟨some inv, some systemAmount, some amountDifference,
        decide (1 ≤ amountDifference)⟩
    | none => ⟨none, some systemAmount, none, true⟩

/-! ## Reconciliation verdict, fee-override recomputation path
(unnamed import-log route, PATCH handler) -/

/-- Import-log state read by the PATCH recomputation: the stored claimed
invoice amount and the nullable run-level fee overrides. -/
structure ImportLogState where
  invoiceAmount : Option ℚ
  participationFee : Option ℚ
  participationFeeTaxType : Option String
  shippingFee : Option ℚ
  shippingFeeTaxType : Option String
  deriving DecidableEq

/-- Tax rate as read by the PATCH handler: `supplierConfig.taxRate || 0.1`,
which treats an explicit 0 as absent (JavaScript falsiness), unlike the POST
handler's `?? 0.1`. -/
def patchTaxRate (c : SupplierConfig) : ℚ :=
  match c.taxRate with
  | some t => if t = 0 then 1 / 10 else t
  | none => 1 / 10

/-- System amount recomputed by the PATCH handler (lines 123-175): run-level
fee overrides take precedence over the supplier config, the override tax type
defaults to "included" when null, and the sum gets a single Math.floor. -/
def patchSystemAmount (products : List ProductRow) (c : SupplierConfig)
    (log : ImportLogState) : ℤ :=
  let taxRate := patchTaxRate c
  let productTotal : ℚ :=
    products.foldl (fun acc p => acc + p.purchasePrice) 0
  let commissionTotal : ℚ :=
    products.foldl (fun acc p => acc + p.commission.getD 0) 0
  let productTotal : ℚ :=
    if c.productPriceTaxType = "excluded" then productTotal * (1 + taxRate)
    else productTotal
  let commissionTotal : ℚ :=
    if c.commissionTaxType = "excluded" then commissionTotal * (1 + taxRate)
    else commissionTotal
  let pf : ℚ × String :=
    match log.participationFee with
    | some v => (v, log.participationFeeTaxType.getD "included")
    | none =>
      match c.participationFee with
      | some f => (f.amount, f.taxType)
      | none => (0, "included")
  let participationFeeAmount : ℚ :=
    if pf.2 = "excluded" then pf.1 * (1 + taxRate) else pf.1
  let sf : ℚ × String :=
    match log.shippingFee with
    | some v => (v, log.shippingFeeTaxType.getD "included")
    | none =>
      match c.shippingFee with
      | some f => (f.amount, f.taxType)
      | none => (0, "included")
  let shippingFeeAmount : ℚ :=
    if sf.2 = "excluded" then sf.1 * (1 + taxRate) else sf.1
  jsFloor (productTotal + commissionTotal + participationFeeAmount + shippingFeeAmount)

/-- Verdict fields re-persisted by the PATCH handler (lines 175-195): the
claimed amount is left unchanged; when it is null both the difference and the
mismatch flag fall back to their initial values (null and false). -/
def patchVerdict (products : List ProductRow) (c : SupplierConfig)
    (log : ImportLogState) : ImportVerdict :=
  let systemAmount := patchSystemAmount products c log
  match log.invoiceAmount with
  | some inv =>
    let amountDifference : ℚ := |inv - (systemAmount : ℚ)|
    ⟨some inv, some systemAmount, some amountDifference,
      decide (1 ≤ amountDifference)⟩
  | none => ⟨none, some systemAmount, none, false⟩

/-! ## Price normalizer (src/lib/parsers/base-parser.ts, normalizePrice)

Strings are modelled as lists of characters.  JavaScript `parseFloat` is
modelled faithfully on exact rationals: leading whitespace is skipped, an
optional sign, an "Infinity" literal or a decimal literal (integer digits,
optional fraction, optional exponent) is read as the longest valid prefix, and
anything else yields NaN. -/

/-- Result of a JavaScript floating-point producing operation: NaN, a signed
infinity, or a finite value (modelled as an exact rational). -/
inductive JsFloat where
  | nan : JsFloat
  | inf : Bool → JsFloat
  | val : ℚ → JsFloat
  deriving DecidableEq

/-- Untyped JavaScript argument as accepted by `normalizePrice(value: any)`:
a number, a string, or anything else. -/
inductive JsValue where
  | num : ℚ → JsValue
  | str : List Char → JsValue
  | other : JsValue

/-- Characters treated as whitespace by JavaScript string trimming and by
parseFloat (the common set). -/
def isJsWhitespace (ch : Char) : Bool :=
  ch = ' ' ∨ ch = '\t' ∨ ch = '\n' ∨ ch = '\r' ∨
  ch = '\u000B' ∨ ch = '\u000C' ∨ ch = ' ' ∨ ch = '﻿'

/-- Model of JavaScript String.prototype.trim: drop whitespace at both ends. -/
def jsTrim (s : List Char) : List Char :=
  ((s.dropWhile isJsWhitespace).reverse.dropWhile isJsWhitespace).reverse

/-- ASCII digit test (JavaScript digit syntax in numeric literals). -/
def isAsciiDigit (ch : Char) : Bool := ch.isDigit

/-- Numeric value of an ASCII digit character. -/
def digitVal (ch : Char) : ℕ := ch.toNat - 48

/-- Value of a big-endian list of digit characters. -/
def digitsToNat (ds : List Char) : ℕ :=
  ds.foldl (fun acc d => 10 * acc + digitVal d) 0

/-- Optional leading sign of a JavaScript numeric literal: strip one leading
minus (negative) or plus (positive) character. -/
def parseSign (s : List Char) : Bool × List Char :=
  match s with
  | [] => (false, [])
  | c :: t =>
    if c = '-' then (true, t)
    else if c = '+' then (false, t)
    else (false, c :: t)

/-- Model of JavaScript parseFloat on an exact-rational semantics.  The sign,
the "Infinity" literal, the digits before and after the decimal point and an
optional exponent are read from the front; trailing garbage is ignored; an
input with no digits at all is NaN. -/
def parseFloat (s : List Char) : JsFloat :=
  let sgn := parseSign (s.dropWhile isJsWhitespace)
  let neg := sgn.1
  let s2 := sgn.2
  if List.isPrefixOf ['I', 'n', 'f', 'i', 'n', 'i', 't', 'y'] s2 then
    .inf neg
  else
    let intPart := s2.takeWhile isAsciiDigit
    let rest := s2.dropWhile isAsciiDigit
    let fracAndRest : List Char × List Char :=
      match rest with
      | c :: t =>
        if c = '.' then (t.takeWhile isAsciiDigit, t.dropWhile isAsciiDigit)
        else ([], c :: t)
      | [] => ([], [])
    let fracPart := fracAndRest.1
    let rest2 := fracAndRest.2
    if intPart = [] ∧ fracPart = [] then .nan
    else
      let mantissa : ℚ :=
        (digitsToNat intPart : ℚ) + (digitsToNat fracPart : ℚ) / 10 ^ fracPart.length
      let exponent : Option ℤ :=
        match rest2 with
        | c :: t =>
          if c = 'e' ∨ c = 'E' then
            let esgn := parseSign t
            let eds := esgn.2.takeWhile isAsciiDigit
            if eds = [] then none
            else some ((if esgn.1 then -1 else 1) * (digitsToNat eds : ℤ))
          else none
        | [] => none
      let value : ℚ :=
        match exponent with
        | some z => mantissa * (10 : ℚ) ^ z
        | none => mantissa
      .val (if neg then -value else value)

/-- Characters removed by normalizePrice's `replace` with the character class
of comma, half-width yen sign and the yen kanji (the source regex holds exactly
these three characters). -/
def strippedByNormalize (ch : Char) : Bool :=
  ch = ',' ∨ ch = '¥' ∨ ch = '円'

/-- Model of `normalizePrice` from base-parser.ts: numbers are returned as-is;
strings are stripped of comma, half-width yen sign and the yen kanji, trimmed
and fed to parseFloat, with `|| 0` mapping NaN (and 0 itself) to 0; any other
value yields 0.  Infinite parse results are truthy in JavaScript and are
therefore returned unchanged. -/
def normalizePrice (v : JsValue) : JsFloat :=
  match v with
  | .num q => .val q
  | .str s =>
    let cleaned := jsTrim (s.filter (fun ch => ¬ strippedByNormalize ch))
    match parseFloat cleaned with
    | .nan => .val 0
    | .inf b => .inf b
    | .val q => .val q
  | .other => .val 0

/-- Decimal string of a natural number (the JavaScript `toString()` of a
nonnegative integer-valued number): big-endian digits, with "0" for zero. -/
def natToChars (n : ℕ) : List Char :=
  if n = 0 then ['0']
  else ((Nat.digits 10 n).reverse.map fun d => Nat.digitChar d)

/-! ## Generic CSV extractor (src/lib/parsers/csv-parser.ts) and the
Ecoring CSV extractor (src/lib/parsers/ecoring-parser.ts)

A parsed CSV record is an association list from column names to cell strings
(csv-parse with `columns: true` yields string cells). -/

/-- Parsed CSV record: column name to cell string. -/
def CsvRecord := List (String × String)

/-- Lookup of a record field or of a mapping entry; none models a JavaScript
undefined property. -/
def lookupField (r : List (String × String)) (k : String) : Option String :=
  (r.find? (fun e => e.1 = k)).map (fun e => e.2)

/-- Model of CSVParser.getMappedValue: use the mapped column when the mapping
has a truthy (non-empty) entry for the field and the record has that column;
otherwise fall back to the field name itself. -/
def getMappedValue (record : CsvRecord) (mapping : List (String × String))
    (field : String) : Option String :=
  match lookupField mapping field with
  | some mappedKey =>
    if mappedKey ≠ "" then
      match lookupField record mappedKey with
      | some v => some v
      | none => lookupField record field
    else lookupField record field
  | none => lookupField record field

/-- Price cell as fed to normalizePrice by the CSV extractors: the JavaScript
expression `cell || 0` turns an undefined or empty cell into the number 0 and
keeps any other string. -/
def priceCell (cell : Option String) : JsValue :=
  match cell with
  | some s => if s = "" then .num 0 else .str s.toList
  | none => .num 0

/-- Line item built by the generic CSV extractor from one record. -/
structure CsvProduct where
  productId : String
  boxNumber : Option String
  rowNumber : Option String
  originalProductId : Option String
  name : String
  description : Option String
  purchasePrice : JsFloat
  commission : JsFloat
  brand : Option String
  rank : Option String
  genre : Option String
  quantity : Option String
  deriving DecidableEq

/-- Record-to-item conversion of CSVParser.parse (csv-parser.ts lines
137-156). -/
def csvRowToProduct (mapping : List (String × String)) (record : CsvRecord) :
    CsvProduct where
  productId := (getMappedValue record mapping "productId").getD ""
  boxNumber := getMappedValue record mapping "boxNumber"
  rowNumber := getMappedValue record mapping "rowNumber"
  originalProductId := getMappedValue record mapping "originalProductId"
  name := (getMappedValue record mapping "name").getD ""
  description := getMappedValue record mapping "description"
  purchasePrice := normalizePrice (priceCell (getMappedValue record mapping "purchasePrice"))
  commission := normalizePrice (priceCell (getMappedValue record mapping "commission"))
  brand := getMappedValue record mapping "brand"
  rank := getMappedValue record mapping "rank"
  genre := getMappedValue record mapping "genre"
  quantity := getMappedValue record mapping "quantity"

/-- Row loop of CSVParser.parse: build an item per record and keep it exactly
when its name is truthy (non-empty); other rows are dropped and the loop keeps
going, so one bad row never fails the file. -/
def csvParseProducts (mapping : List (String × String))
    (records : List CsvRecord) : List CsvProduct :=
  records.filterMap fun record =>
    let product := csvRowToProduct mapping record
    if product.name ≠ "" then some product else none

/-- Line item built by the Ecoring CSV extractor (the fields the claims are
about; the metadata map is omitted). -/
structure EcoringProduct where
  productId : String
  name : String
  purchasePrice : JsFloat
  commission : JsFloat
  deriving DecidableEq

/-- Row loop of EcoringParser.parse (ecoring-parser.ts lines 39-91): a record
with a falsy item_name is skipped with `continue`; the bid price and the
purchase commission go through normalizePrice with `|| 0`. -/
def ecoringParseProducts (records : List CsvRecord) : List EcoringProduct :=
  records.filterMap fun record =>
    let name := lookupField record "item_name"
    match name with
    | none => none
    | some n =>
      if n = "" then none
      else
        some
          { productId :=
              match lookupField record "buyout_number" with
              | some b => if b ≠ "" then b else ""
              | none => ""
            name := n
            purchasePrice := normalizePrice (priceCell (lookupField record "bid_price"))
            commission := normalizePrice (priceCell (lookupField record "purchase_commission")) }

/-! ## Extractor selector (src/lib/parsers/parser-factory.ts) -/

/-- Test whether `needle` occurs as a contiguous substring of `hay`
(JavaScript String.prototype.includes). -/
def hasSubstr (hay needle : List Char) : Bool :=
  if List.isPrefixOf needle hay then true
  else
    match hay with
    | [] => false
    | _ :: t => hasSubstr t needle

/-- Lower-casing as applied by the factory (ASCII letters; the Japanese
aliases are unaffected by case mapping). -/
def jsToLower (s : List Char) : List Char := s.map Char.toLower

/-- The parser classes the factory can instantiate. -/
inductive ParserKind where
  | daikichi | otakaraya | ecoring | timeless
  | genericCSV | apre | revaauc | ore | genericPDF
  deriving DecidableEq

/-- Model of ParserFactory.getParser: two-level dispatch, first on the
lower-cased media type (csv-like, then pdf-like, else an unsupported-format
error), then an if-chain of case-insensitive substring tests against fixed
supplier aliases whose first match wins, with the generic parser when no
alias matches or no supplier name was given. -/
def getParser (fileType : String) (supplierName : Option String) :
    Except String ParserKind :=
  let type := jsToLower fileType.toList
  if hasSubstr type "csv".toList ∨ type = "text/csv".toList then
    match supplierName with
    | some sn =>
      let normalizedName := jsToLower sn.toList
      if hasSubstr normalizedName "daikichi".toList ∨
          hasSubstr normalizedName "大吉".toList then .ok .daikichi
      else if hasSubstr normalizedName "otakaraya".toList ∨
          hasSubstr normalizedName "おたからや".toList then .ok .otakaraya
      else if hasSubstr normalizedName "ecoring".toList then .ok .ecoring
      else if hasSubstr normalizedName "timeless".toList ∨
          hasSubstr normalizedName "タイムレス".toList then .ok .timeless
      else .ok .genericCSV
    | none => .ok .genericCSV
  else if hasSubstr type "pdf".toList ∨ type = "application/pdf".toList then
    match supplierName with
    | some sn =>
      let normalizedName := jsToLower sn.toList
      if hasSubstr normalizedName "apre".toList ∨
          hasSubstr normalizedName "アプレ".toList then .ok .apre
      else if hasSubstr normalizedName "revaauc".toList ∨
          hasSubstr normalizedName "リバオク".toList ∨
          hasSubstr normalizedName "レバオク".toList then .ok .revaauc
      else if hasSubstr normalizedName "ore".toList ∨
          hasSubstr normalizedName "オーレ".toList then .ok .ore
      else if hasSubstr normalizedName "timeless".toList ∨
          hasSubstr normalizedName "タイムレス".toList then .ok .timeless
      else .ok .genericPDF
    | none => .ok .genericPDF
  else .error ("サポートされていないファイル形式です: " ++ fileType)

/-- Alias table formulation of the csv-side dispatch, for stating the
first-match-wins property of the selector. -/
def csvAliasTable : List (List String × ParserKind) :=
  [(["daikichi", "大吉"], .daikichi),
   (["otakaraya", "おたからや"], .otakaraya),
   (["ecoring"], .ecoring),
   (["timeless", "タイムレス"], .timeless)]

/-- Alias table formulation of the pdf-side dispatch. -/
def pdfAliasTable : List (List String × ParserKind) :=
  [(["apre", "アプレ"], .apre),
   (["revaauc", "リバオク", "レバオク"], .revaauc),
   (["ore", "オーレ"], .ore),
   (["timeless", "タイムレス"], .timeless)]

/-- First entry of an alias table one of whose aliases occurs in the
(lower-cased) supplier name. -/
def firstAliasMatch (name : List Char) :
    List (List String × ParserKind) → Option ParserKind
  | [] => none
  | (aliases, k) :: rest =>
    if aliases.any (fun a => hasSubstr name a.toList) then some k
    else firstAliasMatch name rest

/-! ## Apre PDF extractor, concatenated token splitter
(unnamed apre-parser source, ApreParser.parseNoAndPrice) -/

/-- Model of JavaScript parseInt with no radix argument on the substrings the
splitter feeds it: skip whitespace, optional sign, then leading decimal
digits; none models NaN. -/
def jsParseInt (s : List Char) : Option ℤ :=
  let sgn := parseSign (s.dropWhile isJsWhitespace)
  let ds := sgn.2.takeWhile isAsciiDigit
  if ds = [] then none
  else some ((if sgn.1 then -1 else 1) * (digitsToNat ds : ℤ))

/-- Comparison a < b on possibly-NaN operands: any comparison with NaN is
false in JavaScript. -/
def jsLtOpt (a b : Option ℤ) : Bool :=
  match a, b with
  | some x, some y => decide (x < y)
  | _, _ => false

/-- Absolute difference with NaN propagation. -/
def jsAbsSub (a : Option ℤ) (b : ℤ) : Option ℤ :=
  a.map fun x => |x - b|

/-- Model of ApreParser.parseNoAndPrice(noAndPrice, previousNo): split the
concatenated quantity + item number + comma-grouped price token.  A token
without a comma, or whose text after the first comma is not exactly three
digits, yields item number "0" with the whole token as the price.  Prefixes of
3, 5 or 6 characters split at a fixed position; a 4-character prefix is
ambiguous between a 1-digit and a 2-digit item number and is resolved toward
previousNo + 1, the two-digit reading winning only when strictly closer. -/
def parseNoAndPrice (noAndPrice : List Char) (previousNo : ℤ) :
    List Char × List Char :=
  match noAndPrice.findIdx? (fun ch => ch = ',') with
  | none => (['0'], noAndPrice)
  | some commaIndex =>
    let beforeComma := noAndPrice.take commaIndex
    let afterComma := noAndPrice.drop (commaIndex + 1)
    if afterComma.length ≠ 3 ∨ ¬ afterComma.all isAsciiDigit then
      (['0'], noAndPrice)
    else if beforeComma.length = 3 then
      (beforeComma.drop 1 |>.take 1,
       (beforeComma.drop 2) ++ ',' :: afterComma)
    else if beforeComma.length = 4 then
      let noA := jsParseInt (beforeComma.drop 1 |>.take 1)
      let noB := jsParseInt (beforeComma.drop 1 |>.take 2)
      let expectedNo := previousNo + 1
      let diffA := jsAbsSub noA expectedNo
      let diffB := jsAbsSub noB expectedNo
      if jsLtOpt diffB diffA then
        (beforeComma.drop 1 |>.take 2,
         (beforeComma.drop 3) ++ ',' :: afterComma)
      else
        (beforeComma.drop 1 |>.take 1,
         (beforeComma.drop 2) ++ ',' :: afterComma)
    else if beforeComma.length = 5 then
      (beforeComma.drop 1 |>.take 2,
       (beforeComma.drop 3) ++ ',' :: afterComma)
    else if beforeComma.length = 6 then
      (beforeComma.drop 1 |>.take 2,
       (beforeComma.drop 3) ++ ',' :: afterComma)
    else if beforeComma.length ≤ 2 then
      (['0'], noAndPrice)
    else
      (['0'], noAndPrice)

/-! ## Statement-level definitions -/

/-- Rounding half away from zero, the rounding the specification ascribes to
the "round" mode: magnitudes are rounded half-up and the sign is restored. -/
def roundHalfAwayFromZero (v : ℚ) : ℤ :=
  if 0 ≤ v then ⌊v + 1 / 2⌋ else -⌊-v + 1 / 2⌋

/-- Spec-side single-rounding formula component: add tax by multiplication
exactly when the tax type is "excluded". -/
def taxAdjusted (taxType : String) (v t : ℚ) : ℚ :=
  if taxType = "excluded" then v * (1 + t) else v

/-- Effective fee amount resolved from a supplier-config fee entry: the
configured amount, or zero when absent. -/
def feeAmount : Option FeeSetting → ℚ
  | some f => f.amount
  | none => 0

/-- Effective fee tax type resolved from a supplier-config fee entry:
the configured type, or "included" when absent. -/
def feeTaxType : Option FeeSetting → String
  | some f => f.taxType
  | none => "included"

/-- Effective fee resolution of the recomputation path: a non-null run-level
override (with its tax type defaulting to "included") takes precedence over
the supplier-config entry; with neither the fee is zero and "included". -/
def patchFee (logAmount : Option ℚ) (logTaxType : Option String)
    (configFee : Option FeeSetting) : ℚ × String :=
  match logAmount with
  | some v => (v, logTaxType.getD "included")
  | none =>
    match configFee with
    | some f => (f.amount, f.taxType)
    | none => (0, "included")

/-- Supplier config with its rounding configuration replaced by the explicit
"total"/"floor" strategy. -/
def withTotalFloor (c : SupplierConfig) : SupplierConfig :=
  { c with roundingConfig := some ⟨"total", "floor"⟩ }

/-- Calculator item corresponding to a persisted product row (the nullable
commission read as `|| 0`). -/
def rowToCalcItem (p : ProductRow) : CalcItem :=
  ⟨p.purchasePrice, p.commission.getD 0⟩

/-- Variant of normalizePrice that follows the claim words: it strips the
full-width yen sign as well as the comma, the half-width yen sign and the yen
kanji.  Used only to compare the claimed behaviour with the code. -/
def claimStripsFullWidthYen (ch : Char) : Bool :=
  ch = ',' ∨ ch = '¥' ∨ ch = '￥' ∨ ch = '円'

/-- Claim-side normalizePrice (strips the full-width yen sign too). -/
def claimNormalizePrice (v : JsValue) : JsFloat :=
  match v with
  | .num q => .val q
  | .str s =>
    let cleaned := jsTrim (s.filter (fun ch => ¬ claimStripsFullWidthYen ch))
    match parseFloat cleaned with
    | .nan => .val 0
    | .inf b => .inf b
    | .val q => .val q
  | .other => .val 0

/-! ## Helper lemmas -/

/-- Folding additions from an accumulator equals the accumulator plus the sum
of the mapped list. -/
theorem foldl_add_map {α : Type} (f : α → ℚ) :
    ∀ (l : List α) (a : ℚ),
      l.foldl (fun acc x => acc + f x) a = a + (l.map f).sum := by
  intro l
  induction l with
  | nil => intro a; simp
  | cons x t ih =>
    intro a
    simp only [List.foldl_cons, List.map_cons, List.sum_cons, ih]
    ring

/-- Reduction of applyRounding at the literal mode "floor". -/
theorem applyRounding_floor_eq (v : ℚ) : applyRounding v "floor" = jsFloor v := rfl

/-- Reduction of applyRounding at the literal mode "ceil". -/
theorem applyRounding_ceil_eq (v : ℚ) : applyRounding v "ceil" = jsCeil v := rfl

/-- Reduction of applyRounding at the literal mode "round". -/
theorem applyRounding_round_eq (v : ℚ) : applyRounding v "round" = jsMathRound v := rfl

/-! ## C5: applyRounding -/

/-- C5 (counterexample): the claim says the "round" mode rounds half away from
zero for every finite value including negative ones, but the code uses
Math.round, which sends -1.5 to -1 while half-away-from-zero gives -2. -/
theorem applyRounding_round_not_away_from_zero :
    applyRounding (-(3 / 2)) "round" = -1 ∧
    roundHalfAwayFromZero (-(3 / 2)) = -2 ∧
    applyRounding (-(3 / 2)) "round" ≠ roundHalfAwayFromZero (-(3 / 2)) := by
  have h1 : applyRounding (-(3 / 2)) "round" = -1 := by
    rw [applyRounding_round_eq]; unfold jsMathRound; norm_num
  have h2 : roundHalfAwayFromZero (-(3 / 2)) = -2 := by
    unfold roundHalfAwayFromZero
    rw [if_neg (by norm_num)]
    norm_num
  exact ⟨h1, h2, by rw [h1, h2]; decide⟩

/-- C5 (amended): applyRounding computes the integer floor for "floor", the
integer ceiling for "ceil", Math.round (floor of v + 1/2, ties toward positive
infinity) for "round" — which agrees with rounding half away from zero for all
nonnegative values — and the floor for every unknown mode; the three boundary
examples of the claim hold. -/
theorem applyRounding_modes (v : ℚ) (m : String)
    (hm : m ≠ "floor" ∧ m ≠ "ceil" ∧ m ≠ "round") :
    applyRounding v "floor" = ⌊v⌋ ∧
    applyRounding v "ceil" = ⌈v⌉ ∧
    applyRounding v "round" = ⌊v + 1 / 2⌋ ∧
    (0 ≤ v → applyRounding v "round" = roundHalfAwayFromZero v) ∧
    applyRounding v m = ⌊v⌋ ∧
    applyRounding (2469 / 2) "round" = 1235 ∧
    applyRounding (123401 / 100) "ceil" = 1235 ∧
    applyRounding (123499 / 100) "floor" = 1234 := by
  obtain ⟨h1, h2, h3⟩ := hm
  refine ⟨rfl, rfl, rfl, ?_, ?_, ?_, ?_, ?_⟩
  · intro hv
    rw [applyRounding_round_eq]
    unfold jsMathRound roundHalfAwayFromZero
    rw [if_pos hv]
  · simp [applyRounding, jsFloor, h1, h2, h3]
  · rw [applyRounding_round_eq]; unfold jsMathRound; norm_num
  · rw [applyRounding_ceil_eq]; unfold jsCeil; rw [Int.ceil_eq_iff]; norm_num
  · rw [applyRounding_floor_eq]; unfold jsFloor; norm_num

/-- C5 (witness): the amended theorem applied at v = -3/2 and the unknown
mode "banana". -/
theorem applyRounding_modes_witness :
    applyRounding (-(3 / 2)) "banana" = ⌊(-(3 / 2) : ℚ)⌋ :=
  (applyRounding_modes (-(3 / 2)) "banana"
    ⟨by decide, by decide, by decide⟩).2.2.2.2.1

/-! ## C3: the calculator with an absent rounding configuration -/

/-- Closed form of the calculator when the rounding configuration is absent:
the default "total"/"floor" path sums raw prices and commissions, multiplies
tax-excluded components by (1 + taxRate) and floors once. -/
theorem calcInvoiceAmount_total_formula (products : List CalcItem)
    (config : SupplierConfig) (pf sf : ℚ) (pfT sfT : String)
    (h : config.roundingConfig = none) :
    calculateInvoiceAmount products config pf pfT sf sfT =
      ⌊taxAdjusted config.productPriceTaxType
          ((products.map fun p => p.purchasePrice).sum) (config.taxRate.getD (1 / 10)) +
        taxAdjusted config.commissionTaxType
          ((products.map fun p => p.commission).sum) (config.taxRate.getD (1 / 10)) +
        taxAdjusted pfT pf (config.taxRate.getD (1 / 10)) +
        taxAdjusted sfT sf (config.taxRate.getD (1 / 10))⌋ := by
  simp [calculateInvoiceAmount, h, applyRounding, jsFloor, taxAdjusted,
    foldl_add_map (fun p : CalcItem => p.purchasePrice),
    foldl_add_map (fun p : CalcItem => p.commission)]

/-- C3: with no roundingConfig the calculator does not fail and behaves
exactly as the explicit total/floor configuration: the raw prices and raw
commissions are summed, each subtotal and each fee is multiplied by
(1 + taxRate) exactly when its tax type is "excluded" with no intermediate
rounding (the tax rate defaulting to 1/10 when absent), and a single floor is
applied to the grand sum; the two-item scenario of the claim yields 24200. -/
theorem calculateInvoiceAmount_noRoundingConfig (products : List CalcItem)
    (config : SupplierConfig) (pf sf : ℚ) (pfT sfT : String)
    (h : config.roundingConfig = none) :
    calculateInvoiceAmount products config pf pfT sf sfT =
      calculateInvoiceAmount products
        { config with roundingConfig := some ⟨"total", "floor"⟩ } pf pfT sf sfT ∧
    calculateInvoiceAmount products config pf pfT sf sfT =
      ⌊taxAdjusted config.productPriceTaxType
          ((products.map fun p => p.purchasePrice).sum) (config.taxRate.getD (1 / 10)) +
        taxAdjusted config.commissionTaxType
          ((products.map fun p => p.commission).sum) (config.taxRate.getD (1 / 10)) +
        taxAdjusted pfT pf (config.taxRate.getD (1 / 10)) +
        taxAdjusted sfT sf (config.taxRate.getD (1 / 10))⌋ ∧
    calculateInvoiceAmount [⟨10000, 1000⟩, ⟨10000, 1000⟩]
      ⟨"excluded", "excluded", none, none, some (1 / 10), none⟩
      0 "included" 0 "included" = 24200 := by
  refine ⟨?_, calcInvoiceAmount_total_formula products config pf sf pfT sfT h, ?_⟩
  · simp [calculateInvoiceAmount, h]
  · rw [calcInvoiceAmount_total_formula _ _ _ _ _ _ rfl]
    norm_num [taxAdjusted]

/-- C3 (witness): the theorem applied to a concrete configuration with
roundingConfig absent. -/
theorem calculateInvoiceAmount_noRoundingConfig_witness :
    calculateInvoiceAmount [⟨10000, 1000⟩, ⟨10000, 1000⟩]
      ⟨"excluded", "excluded", none, none, some (1 / 10), none⟩
      0 "included" 0 "included" = 24200 :=
  (calculateInvoiceAmount_noRoundingConfig []
    ⟨"included", "included", none, none, none, none⟩ 0 0 "included" "included"
    rfl).2.2

/-! ## C1: amount difference and mismatch threshold -/

/-- Evaluation of the POST system amount for a single product with no fees and
both tax types "included". -/
theorem postSystemAmount_single_included (price : ℚ) :
    postSystemAmount [⟨price, none⟩]
      ⟨"included", "included", none, none, none, none⟩ = ⌊price⌋ := by
  simp [postSystemAmount, jsFloor]

/-- C1: on both persistence paths (the POST import and the PATCH
recomputation), whenever a claimed invoice amount exists and a system amount
is computed, the persisted amountDifference is the absolute difference of the
two and hasAmountMismatch holds exactly when that difference is at least 1;
the claimed boundary instances (invoice 100000 against system 99999 and
against system 100000) behave as stated. -/
theorem verdict_mismatch_threshold (inv : ℚ) (c : SupplierConfig)
    (products : List ProductRow) (log : ImportLogState)
    (hlog : log.invoiceAmount = some inv) :
    ((postVerdict (some inv) (some c) products).amountDifference =
        some |inv - (postSystemAmount products c : ℚ)| ∧
      ((postVerdict (some inv) (some c) products).hasAmountMismatch = true ↔
        1 ≤ |inv - (postSystemAmount products c : ℚ)|)) ∧
    ((patchVerdict products c log).amountDifference =
        some |inv - (patchSystemAmount products c log : ℚ)| ∧
      ((patchVerdict products c log).hasAmountMismatch = true ↔
        1 ≤ |inv - (patchSystemAmount products c log : ℚ)|)) ∧
    postVerdict (some 100000)
        (some ⟨"included", "included", none, none, none, none⟩)
        [⟨99999, none⟩] =
      ⟨some 100000, some 99999, some 1, true⟩ ∧
    postVerdict (some 100000)
        (some ⟨"included", "included", none, none, none, none⟩)
        [⟨100000, none⟩] =
      ⟨some 100000, some 100000, some 0, false⟩ := by
  have h99 : postSystemAmount [(⟨99999, none⟩ : ProductRow)]
      ⟨"included", "included", none, none, none, none⟩ = 99999 := by
    rw [postSystemAmount_single_included]; norm_num
  have h100 : postSystemAmount [(⟨100000, none⟩ : ProductRow)]
      ⟨"included", "included", none, none, none, none⟩ = 100000 := by
    rw [postSystemAmount_single_included]; norm_num
  refine ⟨⟨rfl, ?_⟩, ?_, ?_, ?_⟩
  · simp [postVerdict]
  · refine ⟨?_, ?_⟩ <;> simp [patchVerdict, hlog]
  · simp [postVerdict, h99]
    norm_num
  · simp [postVerdict, h100]

/-- C1 (witness): the threshold theorem applied to a concrete import-log state
with a claimed amount of 5. -/
theorem verdict_mismatch_threshold_witness :
    (patchVerdict [] ⟨"included", "included", none, none, none, none⟩
        ⟨some 5, none, none, none, none⟩).amountDifference =
      some |5 - (patchSystemAmount []
        ⟨"included", "included", none, none, none, none⟩
        ⟨some 5, none, none, none, none⟩ : ℚ)| :=
  (verdict_mismatch_threshold 5 ⟨"included", "included", none, none, none, none⟩
    [] ⟨some 5, none, none, none, none⟩ rfl).2.1.1

/-! ## C2: absence of a claimed total -/

/-- C2 (counterexample): the claim asserts the no-ground-truth mismatch flag is
set unconditionally for every supplier and configuration, but when the
supplier's parserConfig is null the POST handler skips the whole verdict
computation and persists the initial false flag. -/
theorem noInvoice_nullConfig_no_mismatch :
    (postVerdict none none []).hasAmountMismatch = false ∧
    (postVerdict none none []).invoiceAmount = none := ⟨rfl, rfl⟩

/-- C2 (amended): when a supplier config is present and no invoice summary was
extracted, the persisted run has a null invoiceAmount and hasAmountMismatch
set; when the supplier config itself is null, nothing is computed and the
initial false flag is persisted instead. -/
theorem noInvoice_mismatch_policy (c : SupplierConfig)
    (products : List ProductRow) :
    (postVerdict none (some c) products).hasAmountMismatch = true ∧
    (postVerdict none (some c) products).invoiceAmount = none ∧
    (postVerdict none none products).hasAmountMismatch = false :=
  ⟨rfl, rfl, rfl⟩

/-! ## C4: equality of the import and recomputation paths -/

/-- The tax rate read with JavaScript `|| 0.1` agrees with the one read with
`?? 0.1` exactly when the stored rate is not the explicit 0. -/
theorem patchTaxRate_eq (c : SupplierConfig) (h : c.taxRate ≠ some 0) :
    patchTaxRate c = c.taxRate.getD (1 / 10) := by
  cases hc : c.taxRate with
  | none => simp [patchTaxRate, hc]
  | some t =>
    have ht : t ≠ 0 := fun h0 => h (by rw [hc, h0])
    simp [patchTaxRate, hc, ht]

/-- With null run-level overrides the PATCH system amount coincides with the
POST one whenever the stored tax rate is not the explicit 0. -/
theorem patchSystemAmount_eq_post (products : List ProductRow)
    (c : SupplierConfig) (log : ImportLogState)
    (htax : c.taxRate ≠ some 0)
    (hpf : log.participationFee = none) (hsf : log.shippingFee = none) :
    patchSystemAmount products c log = postSystemAmount products c := by
  cases hcp : c.participationFee <;> cases hcs : c.shippingFee <;>
    simp [patchSystemAmount, postSystemAmount, patchTaxRate_eq c htax,
      hpf, hsf, hcp, hcs]

/-- With both run-level overrides set, the PATCH system amount coincides with
the POST one over the config whose fees are replaced by the overrides. -/
theorem patchSystemAmount_override_eq_post (products : List ProductRow)
    (c : SupplierConfig) (inv : Option ℚ) (pfA sfA : ℚ) (pfT sfT : String)
    (htax : c.taxRate ≠ some 0) :
    patchSystemAmount products c ⟨inv, some pfA, some pfT, some sfA, some sfT⟩ =
      postSystemAmount products
        { c with participationFee := some ⟨pfA, pfT⟩,
                 shippingFee := some ⟨sfA, sfT⟩ } := by
  simp [patchSystemAmount, postSystemAmount, patchTaxRate_eq c htax]

/-- C4 (counterexample): the two computation paths are not identical as
functions of their inputs.  With a stored tax rate of exactly 0 the PATCH
recomputation reads it through `|| 0.1` and taxes a tax-excluded price while
the POST import does not (systemAmount 110 against 100); and when the claimed
amount is null the POST import persists hasAmountMismatch true while the PATCH
recomputation resets it to false — both on the same items, config and
effective fees. -/
theorem patch_post_paths_differ :
    (patchVerdict [⟨100, none⟩]
        ⟨"excluded", "included", none, none, some 0, none⟩
        ⟨some 0, none, none, none, none⟩).systemAmount = some 110 ∧
    (postVerdict (some 0)
        (some ⟨"excluded", "included", none, none, some 0, none⟩)
        [⟨100, none⟩]).systemAmount = some 100 ∧
    (patchVerdict [⟨100, none⟩]
        ⟨"included", "included", none, none, none, none⟩
        ⟨none, none, none, none, none⟩).hasAmountMismatch = false ∧
    (postVerdict none
        (some ⟨"included", "included", none, none, none, none⟩)
        [⟨100, none⟩]).hasAmountMismatch = true := by
  have h1 : patchSystemAmount [(⟨100, none⟩ : ProductRow)]
      ⟨"excluded", "included", none, none, some 0, none⟩
      ⟨some 0, none, none, none, none⟩ = 110 := by
    simp [patchSystemAmount, patchTaxRate, jsFloor]
    norm_num
  have h2 : postSystemAmount [(⟨100, none⟩ : ProductRow)]
      ⟨"excluded", "included", none, none, some 0, none⟩ = 100 := by
    simp [postSystemAmount, jsFloor]
  exact ⟨by simp [patchVerdict, h1], by simp [postVerdict, h2], rfl, rfl⟩

/-- C4 (amended): the fee-override recomputation and a fresh import produce
identical verdicts as functions of the same persisted items, supplier config
and effective fees, provided the stored tax rate is not the explicit 0 (the
PATCH path reads it with `|| 0.1`) and a claimed invoice amount is present
(with a null claimed amount the import flags a mismatch while the
recomputation does not).  Null overrides match the import over the config's
own fees; explicit overrides match the import over the config with its fees
replaced by the overrides. -/
theorem patch_post_paths_agree (products : List ProductRow)
    (c : SupplierConfig) (inv : ℚ) (log : ImportLogState)
    (htax : c.taxRate ≠ some 0) (hinv : log.invoiceAmount = some inv)
    (hpf : log.participationFee = none) (hsf : log.shippingFee = none) :
    patchVerdict products c log = postVerdict (some inv) (some c) products ∧
    ∀ (pfA sfA : ℚ) (pfT sfT : String),
      patchVerdict products c ⟨some inv, some pfA, some pfT, some sfA, some sfT⟩ =
        postVerdict (some inv)
          (some { c with participationFee := some ⟨pfA, pfT⟩,
                         shippingFee := some ⟨sfA, sfT⟩ }) products := by
  constructor
  · simp [patchVerdict, postVerdict, hinv,
      patchSystemAmount_eq_post products c log htax hpf hsf]
  · intro pfA sfA pfT sfT
    simp [patchVerdict, postVerdict,
      patchSystemAmount_override_eq_post products c (some inv) pfA sfA pfT sfT htax]

/-- C4 (witness): the path-agreement theorem applied to one product, the
default config and a claimed amount of 7. -/
theorem patch_post_paths_agree_witness :
    patchVerdict [⟨10, none⟩] ⟨"included", "included", none, none, none, none⟩
        ⟨some 7, none, none, none, none⟩ =
      postVerdict (some 7)
        (some ⟨"included", "included", none, none, none, none⟩) [⟨10, none⟩] :=
  (patch_post_paths_agree [⟨10, none⟩]
    ⟨"included", "included", none, none, none, none⟩ 7
    ⟨some 7, none, none, none, none⟩ (by simp) rfl rfl rfl).1

/-! ## C10: the persisted system amount against the calculator -/

/-- C10 (counterexample): the persisted system amount of a fee-override
recomputation is not always the total/floor calculator value: with a stored
tax rate of exactly 0 the PATCH handler persists 110 for a single tax-excluded
price of 100, while the calculator under the total/floor configuration yields
100 on the same item, config and effective fees. -/
theorem patch_differs_from_total_floor_calculator :
    (patchVerdict [⟨100, none⟩]
        ⟨"excluded", "included", none, none, some 0, none⟩
        ⟨some 0, none, none, none, none⟩).systemAmount = some 110 ∧
    calculateInvoiceAmount [⟨100, 0⟩]
        (withTotalFloor ⟨"excluded", "included", none, none, some 0, none⟩)
        0 "included" 0 "included" = 100 ∧
    (110 : ℤ) ≠ 100 := by
  have h1 : patchSystemAmount [(⟨100, none⟩ : ProductRow)]
      ⟨"excluded", "included", none, none, some 0, none⟩
      ⟨some 0, none, none, none, none⟩ = 110 := by
    simp [patchSystemAmount, patchTaxRate, jsFloor]
    norm_num
  refine ⟨by simp [patchVerdict, h1], ?_, by decide⟩
  simp [calculateInvoiceAmount, withTotalFloor, applyRounding, jsFloor]

/-- C10 (amended): the system amount persisted by the POST import always
equals the calculator applied to the same items under the config with its
rounding configuration replaced by total/floor and the fees resolved from the
config — for every supplier config, whatever calculation type or rounding mode
its roundingConfig selects; the PATCH recomputation likewise equals that
calculator value over its effective (override-resolved) fees whenever the
stored tax rate is not the explicit 0. -/
theorem persisted_systemAmount_is_total_floor :
    (∀ (products : List ProductRow) (c : SupplierConfig),
      postSystemAmount products c =
        calculateInvoiceAmount (products.map rowToCalcItem) (withTotalFloor c)
          (feeAmount c.participationFee) (feeTaxType c.participationFee)
          (feeAmount c.shippingFee) (feeTaxType c.shippingFee)) ∧
    (∀ (products : List ProductRow) (c : SupplierConfig) (log : ImportLogState),
      products ≠ [] → c.taxRate ≠ some 0 →
      patchSystemAmount products c log =
        calculateInvoiceAmount (products.map rowToCalcItem) (withTotalFloor c)
          (patchFee log.participationFee log.participationFeeTaxType c.participationFee).1
          (patchFee log.participationFee log.participationFeeTaxType c.participationFee).2
          (patchFee log.shippingFee log.shippingFeeTaxType c.shippingFee).1
          (patchFee log.shippingFee log.shippingFeeTaxType c.shippingFee).2) := by
  constructor
  · intro products c
    cases hcp : c.participationFee <;> cases hcs : c.shippingFee <;>
      simp [postSystemAmount, calculateInvoiceAmount, withTotalFloor,
        rowToCalcItem, feeAmount, feeTaxType, applyRounding, jsFloor, hcp, hcs,
        foldl_add_map (fun p : CalcItem => p.purchasePrice),
        foldl_add_map (fun p : CalcItem => p.commission),
        foldl_add_map (fun p : ProductRow => p.purchasePrice),
        foldl_add_map (fun p : ProductRow => p.commission.getD 0),
        List.map_map, Function.comp_def]
  · intro products c log _ htax
    cases hlp : log.participationFee <;> cases hls : log.shippingFee <;>
      cases hcp : c.participationFee <;> cases hcs : c.shippingFee <;>
      simp [patchSystemAmount, calculateInvoiceAmount, withTotalFloor,
        rowToCalcItem, patchFee, patchTaxRate_eq c htax, applyRounding, jsFloor,
        hlp, hls, hcp, hcs,
        foldl_add_map (fun p : CalcItem => p.purchasePrice),
        foldl_add_map (fun p : CalcItem => p.commission),
        foldl_add_map (fun p : ProductRow => p.purchasePrice),
        foldl_add_map (fun p : ProductRow => p.commission.getD 0),
        List.map_map, Function.comp_def]

/-- C10 (witness): the second clause applied to one product, the default
config and an all-null import-log state. -/
theorem persisted_systemAmount_is_total_floor_witness :
    patchSystemAmount [⟨10, none⟩]
        ⟨"included", "included", none, none, none, none⟩
        ⟨none, none, none, none, none⟩ =
      calculateInvoiceAmount
        ([(⟨10, none⟩ : ProductRow)].map rowToCalcItem)
        (withTotalFloor ⟨"included", "included", none, none, none, none⟩)
        (patchFee none none none).1 (patchFee none none none).2
        (patchFee none none none).1 (patchFee none none none).2 :=
  persisted_systemAmount_is_total_floor.2 [⟨10, none⟩]
    ⟨"included", "included", none, none, none, none⟩
    ⟨none, none, none, none, none⟩ (by simp) (by simp)

/-! ## C8: the extractor selector -/

/-- C8: the selector rejects any media type whose lower-cased form contains
neither "csv" nor "pdf" with an unsupported-format error; within the csv-like
and pdf-like branches it dispatches by case-insensitive substring match
against the fixed alias tables (Japanese aliases included), first match
winning, and falls back to the generic CSV or PDF extractor when no alias
matches or no supplier name is supplied. -/
theorem getParser_dispatch :
    (∀ (fileType : String) (supplierName : Option String),
      hasSubstr (jsToLower fileType.toList) "csv".toList = false →
      hasSubstr (jsToLower fileType.toList) "pdf".toList = false →
      getParser fileType supplierName =
        .error ("サポートされていないファイル形式です: " ++ fileType)) ∧
    (∀ (fileType : String) (sn : String),
      hasSubstr (jsToLower fileType.toList) "csv".toList = true →
      getParser fileType (some sn) =
        .ok ((firstAliasMatch (jsToLower sn.toList) csvAliasTable).getD .genericCSV)) ∧
    (∀ fileType : String,
      hasSubstr (jsToLower fileType.toList) "csv".toList = true →
      getParser fileType none = .ok .genericCSV) ∧
    (∀ (fileType : String) (sn : String),
      hasSubstr (jsToLower fileType.toList) "csv".toList = false →
      hasSubstr (jsToLower fileType.toList) "pdf".toList = true →
      getParser fileType (some sn) =
        .ok ((firstAliasMatch (jsToLower sn.toList) pdfAliasTable).getD .genericPDF)) ∧
    (∀ fileType : String,
      hasSubstr (jsToLower fileType.toList) "csv".toList = false →
      hasSubstr (jsToLower fileType.toList) "pdf".toList = true →
      getParser fileType none = .ok .genericPDF) := by
  refine ⟨?_, ?_, ?_, ?_, ?_⟩
  · intro fileType supplierName hcsv hpdf
    have h1 : jsToLower fileType.toList ≠ "text/csv".toList := by
      intro heq; rw [heq] at hcsv; exact absurd hcsv (by decide)
    have h2 : jsToLower fileType.toList ≠ "application/pdf".toList := by
      intro heq; rw [heq] at hpdf; exact absurd hpdf (by decide)
    have hc1 : ¬(hasSubstr (jsToLower fileType.toList) "csv".toList = true ∨
        jsToLower fileType.toList = "text/csv".toList) := by
      rintro (h | h)
      · rw [hcsv] at h; exact absurd h (by decide)
      · exact h1 h
    have hc2 : ¬(hasSubstr (jsToLower fileType.toList) "pdf".toList = true ∨
        jsToLower fileType.toList = "application/pdf".toList) := by
      rintro (h | h)
      · rw [hpdf] at h; exact absurd h (by decide)
      · exact h2 h
    simp only [getParser]
    rw [if_neg hc1, if_neg hc2]
  · intro fileType sn hcsv
    simp only [getParser]
    rw [if_pos (Or.inl hcsv)]
    simp only [firstAliasMatch, csvAliasTable, List.any_cons, List.any_nil,
      Bool.or_eq_true, Bool.or_false]
    split_ifs <;> simp_all
  · intro fileType hcsv
    simp only [getParser]
    rw [if_pos (Or.inl hcsv)]
  · intro fileType sn hcsv hpdf
    have h1 : jsToLower fileType.toList ≠ "text/csv".toList := by
      intro heq; rw [heq] at hcsv; exact absurd hcsv (by decide)
    have hc1 : ¬(hasSubstr (jsToLower fileType.toList) "csv".toList = true ∨
        jsToLower fileType.toList = "text/csv".toList) := by
      rintro (h | h)
      · rw [hcsv] at h; exact absurd h (by decide)
      · exact h1 h
    simp only [getParser]
    rw [if_neg hc1, if_pos (Or.inl hpdf)]
    simp only [firstAliasMatch, pdfAliasTable, List.any_cons, List.any_nil,
      Bool.or_eq_true, Bool.or_false]
    split_ifs <;> simp_all
  · intro fileType hcsv hpdf
    have h1 : jsToLower fileType.toList ≠ "text/csv".toList := by
      intro heq; rw [heq] at hcsv; exact absurd hcsv (by decide)
    have hc1 : ¬(hasSubstr (jsToLower fileType.toList) "csv".toList = true ∨
        jsToLower fileType.toList = "text/csv".toList) := by
      rintro (h | h)
      · rw [hcsv] at h; exact absurd h (by decide)
      · exact h1 h
    simp only [getParser]
    rw [if_neg hc1, if_pos (Or.inl hpdf)]

/-- C8 (witness): the dispatch theorem applied to the media type "text/csv"
and a supplier name containing the Daikichi alias. -/
theorem getParser_dispatch_witness :
    getParser "text/csv" (some "Daikichi Auction") =
      .ok ((firstAliasMatch (jsToLower "Daikichi Auction".toList)
        csvAliasTable).getD .genericCSV) :=
  getParser_dispatch.2.1 "text/csv" "Daikichi Auction" (by decide)

/-! ## Character and parsing helper lemmas -/

/-- A digit character differs from any non-digit character. -/
theorem isAsciiDigit_ne (a c : Char) (ha : isAsciiDigit a = true)
    (hc : isAsciiDigit c = false) : a ≠ c := by
  intro heq; rw [heq, hc] at ha; exact Bool.false_ne_true ha

/-- Digit characters are not JavaScript whitespace. -/
theorem digit_not_ws (a : Char) (ha : isAsciiDigit a = true) :
    isJsWhitespace a = false := by
  unfold isJsWhitespace
  apply decide_eq_false
  rintro (rfl | rfl | rfl | rfl | rfl | rfl | rfl | rfl) <;>
    exact absurd ha (by decide)

/-- Whitespace skipping leaves a digit-headed string unchanged. -/
theorem dropWhile_ws_digit (a : Char) (t : List Char)
    (ha : isAsciiDigit a = true) :
    (a :: t).dropWhile isJsWhitespace = a :: t := by
  simp [List.dropWhile_cons, digit_not_ws a ha]

/-- Sign parsing leaves a digit-headed string unchanged. -/
theorem parseSign_digit (a : Char) (t : List Char)
    (ha : isAsciiDigit a = true) :
    parseSign (a :: t) = (false, a :: t) := by
  have h1 : a ≠ '-' := isAsciiDigit_ne a '-' ha (by decide)
  have h2 : a ≠ '+' := isAsciiDigit_ne a '+' ha (by decide)
  simp [parseSign, h1, h2]

/-- Taking digits from an all-digit list returns the whole list. -/
theorem takeWhile_digits (ds : List Char)
    (hall : ∀ c ∈ ds, isAsciiDigit c = true) :
    ds.takeWhile isAsciiDigit = ds := by
  induction ds with
  | nil => rfl
  | cons a t ih =>
    rw [List.takeWhile_cons, if_pos (hall a (List.mem_cons_self a t)),
      ih fun c hc => hall c (List.mem_cons_of_mem a hc)]

/-- Model of parseInt evaluated on a nonempty all-digit string: the numeral
value of the digits. -/
theorem jsParseInt_digits (a : Char) (t : List Char)
    (hall : ∀ c ∈ a :: t, isAsciiDigit c = true) :
    jsParseInt (a :: t) = some (digitsToNat (a :: t) : ℤ) := by
  have ha := hall a (List.mem_cons_self a t)
  simp only [jsParseInt]
  rw [dropWhile_ws_digit a t ha, parseSign_digit a t ha]
  simp [takeWhile_digits _ hall]

/-- A comma-free list has no comma index. -/
theorem findIdx?_comma_none (l : List Char) (h : ',' ∉ l) :
    l.findIdx? (fun ch => ch = ',') = none := by
  rw [List.findIdx?_eq_none_iff]
  intro x hx
  apply decide_eq_false
  intro heq; exact h (heq ▸ hx)

/-- The first comma of `before ++ ',' :: after` with a comma-free prefix sits
at index `before.length`. -/
theorem findIdx?_comma_append (before after : List Char) (h : ',' ∉ before) :
    (before ++ ',' :: after).findIdx? (fun ch => ch = ',') =
      some before.length := by
  induction before with
  | nil => simp
  | cons b bt ih =>
    have hb : ¬ b = ',' := fun heq => h (by simp [heq])
    have hbt : ',' ∉ bt := fun hm => h (List.mem_cons_of_mem b hm)
    simp [List.findIdx?_cons, hb, List.findIdx?_succ, ih hbt]

/-- Dropping past the comma of `before ++ ',' :: after` leaves `after`. -/
theorem drop_comma_append (before after : List Char) :
    (before ++ ',' :: after).drop (before.length + 1) = after := by
  have h1 : before ++ ',' :: after = (before ++ [',']) ++ after := by simp
  rw [h1, List.drop_left' (by simp)]

/-- Comma is not a digit, so a comma never occurs in an all-digit list. -/
theorem comma_not_mem_digits (l : List Char)
    (hall : ∀ c ∈ l, isAsciiDigit c = true) : ',' ∉ l :=
  fun hm => absurd (hall ',' hm) (by decide)

/-! ## C9: the Apre concatenated-token splitter -/

/-- C9: the splitter of the Apre quantity + item-number + price token: a token
without a comma, or whose text after the first comma is not exactly three
digits, yields item number "0" with the whole token as the price; 3, 5 and
6 digit prefixes split at a fixed position; on the ambiguous 4-digit prefix
the split whose item number is closest to previousNo + 1 is chosen, the
two-digit reading winning exactly when strictly closer. -/
theorem parseNoAndPrice_spec (prev : ℤ) :
    (∀ s : List Char, ',' ∉ s → parseNoAndPrice s prev = (['0'], s)) ∧
    (∀ before after : List Char, ',' ∉ before →
      after.length ≠ 3 ∨ after.all isAsciiDigit = false →
      parseNoAndPrice (before ++ ',' :: after) prev =
        (['0'], before ++ ',' :: after)) ∧
    (∀ (x0 x1 x2 : Char) (after : List Char),
      (∀ c ∈ [x0, x1, x2], isAsciiDigit c = true) →
      after.length = 3 → after.all isAsciiDigit = true →
      parseNoAndPrice ([x0, x1, x2] ++ ',' :: after) prev =
        ([x1], x2 :: ',' :: after)) ∧
    (∀ (x0 x1 x2 x3 x4 : Char) (after : List Char),
      (∀ c ∈ [x0, x1, x2, x3, x4], isAsciiDigit c = true) →
      after.length = 3 → after.all isAsciiDigit = true →
      parseNoAndPrice ([x0, x1, x2, x3, x4] ++ ',' :: after) prev =
        ([x1, x2], x3 :: x4 :: ',' :: after)) ∧
    (∀ (x0 x1 x2 x3 x4 x5 : Char) (after : List Char),
      (∀ c ∈ [x0, x1, x2, x3, x4, x5], isAsciiDigit c = true) →
      after.length = 3 → after.all isAsciiDigit = true →
      parseNoAndPrice ([x0, x1, x2, x3, x4, x5] ++ ',' :: after) prev =
        ([x1, x2], x3 :: x4 :: x5 :: ',' :: after)) ∧
    (∀ (q a b c : Char) (after : List Char),
      (∀ ch ∈ [q, a, b, c], isAsciiDigit ch = true) →
      after.length = 3 → after.all isAsciiDigit = true →
      (parseNoAndPrice ([q, a, b, c] ++ ',' :: after) prev =
          ([a], b :: c :: ',' :: after) ∧
        |(digitVal a : ℤ) - (prev + 1)| ≤
          |((10 * digitVal a + digitVal b : ℕ) : ℤ) - (prev + 1)|) ∨
      (parseNoAndPrice ([q, a, b, c] ++ ',' :: after) prev =
          ([a, b], c :: ',' :: after) ∧
        |((10 * digitVal a + digitVal b : ℕ) : ℤ) - (prev + 1)| <
          |(digitVal a : ℤ) - (prev + 1)|)) := by
  refine ⟨?_, ?_, ?_, ?_, ?_, ?_⟩
  · intro s hs
    simp only [parseNoAndPrice]
    rw [findIdx?_comma_none s hs]
  · intro before after h hbad
    have htake : (before ++ ',' :: after).take before.length = before :=
      List.take_left before _
    have hdrop := drop_comma_append before after
    simp only [parseNoAndPrice]
    rw [findIdx?_comma_append before after h]
    rcases hbad with hlen | hall
    · simp [htake, hdrop, hlen]
    · simp [htake, hdrop, hall]
  · intro x0 x1 x2 after hall hlen hdig
    have hnc := comma_not_mem_digits _ hall
    simp only [parseNoAndPrice]
    rw [findIdx?_comma_append [x0, x1, x2] after hnc]
    simp [hlen, hdig]
  · intro x0 x1 x2 x3 x4 after hall hlen hdig
    have hnc := comma_not_mem_digits _ hall
    simp only [parseNoAndPrice]
    rw [findIdx?_comma_append [x0, x1, x2, x3, x4] after hnc]
    simp [hlen, hdig]
  · intro x0 x1 x2 x3 x4 x5 after hall hlen hdig
    have hnc := comma_not_mem_digits _ hall
    simp only [parseNoAndPrice]
    rw [findIdx?_comma_append [x0, x1, x2, x3, x4, x5] after hnc]
    simp [hlen, hdig]
  · intro q a b c after hall hlen hdig
    have hnc := comma_not_mem_digits _ hall
    have ha : isAsciiDigit a = true := hall a (by simp)
    have hb : isAsciiDigit b = true := hall b (by simp)
    have hA : jsParseInt [a] = some (digitsToNat [a] : ℤ) :=
      jsParseInt_digits a [] (by simpa using ha)
    have hB : jsParseInt [a, b] = some (digitsToNat [a, b] : ℤ) :=
      jsParseInt_digits a [b] (by simp [ha, hb])
    by_cases hlt :
        |((10 * digitVal a + digitVal b : ℕ) : ℤ) - (prev + 1)| <
          |(digitVal a : ℤ) - (prev + 1)|
    · right
      refine ⟨?_, hlt⟩
      simp only [parseNoAndPrice]
      rw [findIdx?_comma_append [q, a, b, c] after hnc]
      simp [hlen, hdig, hA, hB, jsAbsSub, jsLtOpt, digitsToNat, hlt]
      push_cast at hlt ⊢
      exact hlt
    · left
      refine ⟨?_, le_of_not_lt hlt⟩
      simp only [parseNoAndPrice]
      rw [findIdx?_comma_append [q, a, b, c] after hnc]
      simp [hlen, hdig, hA, hB, jsAbsSub, jsLtOpt, digitsToNat, hlt]
      push_cast at hlt ⊢
      exact le_of_not_lt hlt

/-- C9 (witness): the splitter theorem applied to the token 1129,000 with
previous item number 11, resolved to item number 12 and price 9,000. -/
theorem parseNoAndPrice_spec_witness :
    (parseNoAndPrice ['1', '1', '2', '9', ',', '0', '0', '0'] 11 =
        (['1'], ['2', '9', ',', '0', '0', '0']) ∧
      |(digitVal '1' : ℤ) - (11 + 1)| ≤
        |((10 * digitVal '1' + digitVal '2' : ℕ) : ℤ) - (11 + 1)|) ∨
    (parseNoAndPrice ['1', '1', '2', '9', ',', '0', '0', '0'] 11 =
        (['1', '2'], ['9', ',', '0', '0', '0']) ∧
      |((10 * digitVal '1' + digitVal '2' : ℕ) : ℤ) - (11 + 1)| <
        |(digitVal '1' : ℤ) - (11 + 1)|) :=
  (parseNoAndPrice_spec 11).2.2.2.2.2 '1' '1' '2' '9' ['0', '0', '0']
    (by decide) (by decide) (by decide)

/-! ## Digit-string evaluation of the normalizer -/

/-- Whitespace skipping is the identity on all-digit strings. -/
theorem dropWhile_ws_digits (ds : List Char)
    (hall : ∀ c ∈ ds, isAsciiDigit c = true) :
    ds.dropWhile isJsWhitespace = ds := by
  cases ds with
  | nil => rfl
  | cons a t =>
    rw [List.dropWhile_cons,
      if_neg (by rw [digit_not_ws a (hall a (List.mem_cons_self a t))]; simp)]

/-- Digit dropping empties an all-digit string. -/
theorem dropWhile_digit_digits (ds : List Char)
    (hall : ∀ c ∈ ds, isAsciiDigit c = true) :
    ds.dropWhile isAsciiDigit = [] := by
  induction ds with
  | nil => rfl
  | cons a t ih =>
    rw [List.dropWhile_cons, if_pos (hall a (List.mem_cons_self a t)),
      ih fun c hc => hall c (List.mem_cons_of_mem a hc)]

/-- Model of parseFloat evaluated on a nonempty all-digit string: the numeral
value of the digits. -/
theorem parseFloat_digits (a : Char) (t : List Char)
    (hall : ∀ c ∈ a :: t, isAsciiDigit c = true) :
    parseFloat (a :: t) = .val ((digitsToNat (a :: t) : ℚ)) := by
  have ha := hall a (List.mem_cons_self a t)
  have hI : ¬ 'I' = a := fun heq =>
    absurd ha (by rw [← heq]; decide)
  simp only [parseFloat]
  rw [dropWhile_ws_digit a t ha, parseSign_digit a t ha]
  have hpre : List.isPrefixOf ['I', 'n', 'f', 'i', 'n', 'i', 't', 'y']
      (a :: t) = false := by
    simp [List.isPrefixOf, hI]
  rw [hpre]
  simp [takeWhile_digits _ hall, dropWhile_digit_digits _ hall, digitsToNat]

/-- Digit characters are not stripped by normalizePrice. -/
theorem digit_not_stripped (a : Char) (ha : isAsciiDigit a = true) :
    strippedByNormalize a = false := by
  unfold strippedByNormalize
  apply decide_eq_false
  rintro (rfl | rfl | rfl) <;> exact absurd ha (by decide)

/-- The normalizePrice character filter is the identity on digit strings. -/
theorem filter_digits (ds : List Char)
    (hall : ∀ c ∈ ds, isAsciiDigit c = true) :
    ds.filter (fun ch => ¬ strippedByNormalize ch) = ds := by
  induction ds with
  | nil => rfl
  | cons a t ih =>
    rw [List.filter_cons]
    rw [if_pos (by rw [digit_not_stripped a (hall a (List.mem_cons_self a t))]; simp),
      ih fun c hc => hall c (List.mem_cons_of_mem a hc)]

/-- Trimming is the identity on all-digit strings. -/
theorem jsTrim_digits (ds : List Char)
    (hall : ∀ c ∈ ds, isAsciiDigit c = true) :
    jsTrim ds = ds := by
  unfold jsTrim
  rw [dropWhile_ws_digits ds hall,
    dropWhile_ws_digits ds.reverse (fun c hc => hall c (List.mem_reverse.mp hc)),
    List.reverse_reverse]

/-- normalizePrice evaluated on a nonempty all-digit string: the numeral value
of the digits. -/
theorem normalizePrice_digits (a : Char) (t : List Char)
    (hall : ∀ c ∈ a :: t, isAsciiDigit c = true) :
    normalizePrice (.str (a :: t)) = .val ((digitsToNat (a :: t) : ℚ)) := by
  simp only [normalizePrice]
  rw [filter_digits _ hall, jsTrim_digits _ hall, parseFloat_digits a t hall]

/-- Nat.digitChar sends digits below 10 to ASCII digit characters. -/
theorem isAsciiDigit_digitChar (d : ℕ) (h : d < 10) :
    isAsciiDigit (Nat.digitChar d) = true := by
  interval_cases d <;> decide

/-- digitVal inverts Nat.digitChar below 10. -/
theorem digitVal_digitChar (d : ℕ) (h : d < 10) :
    digitVal (Nat.digitChar d) = d := by
  interval_cases d <;> decide

/-- Value of the big-endian character rendering of a little-endian digit
list. -/
theorem digitsToNat_map_digitChar (L : List ℕ) (hL : ∀ d ∈ L, d < 10) :
    digitsToNat (L.reverse.map Nat.digitChar) = Nat.ofDigits 10 L := by
  induction L with
  | nil => simp [digitsToNat]
  | cons x M ih =>
    have hx := hL x (List.mem_cons_self x M)
    have hM : ∀ d ∈ M, d < 10 := fun d hd => hL d (List.mem_cons_of_mem x hd)
    rw [List.reverse_cons, List.map_append]
    simp only [List.map_cons, List.map_nil]
    have happ : digitsToNat (M.reverse.map Nat.digitChar ++ [Nat.digitChar x]) =
        10 * digitsToNat (M.reverse.map Nat.digitChar) + digitVal (Nat.digitChar x) := by
      unfold digitsToNat
      rw [List.foldl_append]
      rfl
    rw [happ, ih hM, digitVal_digitChar x hx, Nat.ofDigits_cons]
    ring

/-- The characters of natToChars are all digits. -/
theorem natToChars_digits (n : ℕ) :
    ∀ c ∈ natToChars n, isAsciiDigit c = true := by
  intro c hc
  unfold natToChars at hc
  by_cases hn : n = 0
  · rw [if_pos hn] at hc
    simp at hc
    rw [hc]; decide
  · rw [if_neg hn] at hc
    obtain ⟨d, hd, rfl⟩ := List.mem_map.mp hc
    exact isAsciiDigit_digitChar d
      (Nat.digits_lt_base (by norm_num) (List.mem_reverse.mp hd))

/-- natToChars is never empty. -/
theorem natToChars_ne_nil (n : ℕ) : natToChars n ≠ [] := by
  unfold natToChars
  by_cases hn : n = 0
  · rw [if_pos hn]; simp
  · rw [if_neg hn]
    simp [Nat.digits_ne_nil_iff_ne_zero.mpr hn]

/-- Round trip: the numeral value of the decimal rendering of n is n. -/
theorem digitsToNat_natToChars (n : ℕ) : digitsToNat (natToChars n) = n := by
  unfold natToChars
  by_cases hn : n = 0
  · rw [if_pos hn, hn]; decide
  · rw [if_neg hn,
      digitsToNat_map_digitChar _ (fun d hd => Nat.digits_lt_base (by norm_num) hd),
      Nat.ofDigits_digits]

/-- normalizePrice applied to the decimal rendering of a natural number. -/
theorem normalizePrice_natToChars (n : ℕ) :
    normalizePrice (.str (natToChars n)) = .val ((n : ℚ)) := by
  rcases hc : natToChars n with _ | ⟨a, t⟩
  · exact absurd hc (natToChars_ne_nil n)
  · have hall : ∀ c ∈ a :: t, isAsciiDigit c = true := by
      rw [← hc]; exact natToChars_digits n
    rw [normalizePrice_digits a t hall, ← hc, digitsToNat_natToChars]

/-! ## C6: normalizePrice -/

/-- C6 (counterexample): the claim says the full-width yen sign is stripped,
but the source regex removes only the comma, the half-width yen sign and the
yen kanji: on the input with a full-width yen sign the code returns 0 while
the claimed stripping would return 100. -/
theorem normalizePrice_fullwidth_yen :
    normalizePrice (.str "￥100".toList) = .val 0 ∧
    claimNormalizePrice (.str "￥100".toList) = .val 100 ∧
    normalizePrice (.str "￥100".toList) ≠
      claimNormalizePrice (.str "￥100".toList) := by
  have h1 : normalizePrice (.str "￥100".toList) = .val 0 := by decide
  have h2 : claimNormalizePrice (.str "￥100".toList) = .val 100 := by
    have hfil : "￥100".toList.filter
        (fun ch => ¬ claimStripsFullWidthYen ch) = ['1', '0', '0'] := by decide
    simp only [claimNormalizePrice]
    rw [hfil, jsTrim_digits _ (by decide),
      parseFloat_digits '1' ['0', '0'] (by decide),
      show digitsToNat ['1', '0', '0'] = 100 from by decide]
    norm_num
  refine ⟨h1, h2, ?_⟩
  rw [h1, h2]
  intro heq
  exact absurd (JsFloat.val.inj heq) (by norm_num)

/-- C6 (amended): normalizePrice returns numbers unchanged, returns 0 for
non-string non-number input, for the empty string and for unparseable strings
(never throwing), strips commas, half-width yen signs and the yen kanji before
parsing (the full-width yen sign is not stripped), and is idempotent on
numeric strings: whenever a string normalizes to a natural number n, feeding
the decimal rendering of n back returns the same value. -/
theorem normalizePrice_spec :
    (∀ q : ℚ, normalizePrice (.num q) = .val q) ∧
    normalizePrice .other = .val 0 ∧
    normalizePrice (.str "".toList) = .val 0 ∧
    normalizePrice (.str "abc".toList) = .val 0 ∧
    normalizePrice (.str "¥12,345円".toList) = .val 12345 ∧
    (∀ (s : List Char) (n : ℕ),
      normalizePrice (.str s) = .val ((n : ℚ)) →
      normalizePrice (.str (natToChars n)) = normalizePrice (.str s)) := by
  refine ⟨fun q => rfl, rfl, by decide, by decide, ?_, ?_⟩
  · have hfil : "¥12,345円".toList.filter
        (fun ch => ¬ strippedByNormalize ch) = ['1', '2', '3', '4', '5'] := by
      decide
    simp only [normalizePrice]
    rw [hfil, jsTrim_digits _ (by decide),
      parseFloat_digits '1' ['2', '3', '4', '5'] (by decide),
      show digitsToNat ['1', '2', '3', '4', '5'] = 12345 from by decide]
    norm_num
  · intro s n h
    rw [h, normalizePrice_natToChars]

/-- C6 (witness): the idempotence clause applied to the string "12,345円". -/
theorem normalizePrice_spec_witness :
    normalizePrice (.str (natToChars 12345)) =
      normalizePrice (.str "12,345円".toList) :=
  normalizePrice_spec.2.2.2.2.2 "12,345円".toList 12345 (by
    have hfil : "12,345円".toList.filter
        (fun ch => ¬ strippedByNormalize ch) = ['1', '2', '3', '4', '5'] := by
      decide
    simp only [normalizePrice]
    rw [hfil, jsTrim_digits _ (by decide),
      parseFloat_digits '1' ['2', '3', '4', '5'] (by decide),
      show digitsToNat ['1', '2', '3', '4', '5'] = 12345 from by decide])

/-! ## C7: the CSV extractors -/

/-- Model of parseFloat evaluated on a minus sign followed by digits: the
negated numeral value. -/
theorem parseFloat_neg_digits (a : Char) (t : List Char)
    (hall : ∀ c ∈ a :: t, isAsciiDigit c = true) :
    parseFloat ('-' :: a :: t) = .val (-((digitsToNat (a :: t) : ℚ))) := by
  have ha := hall a (List.mem_cons_self a t)
  have hI : ¬ 'I' = a := fun heq => absurd ha (by rw [← heq]; decide)
  simp only [parseFloat]
  rw [show ('-' :: a :: t).dropWhile isJsWhitespace = '-' :: a :: t from by
      rw [List.dropWhile_cons, if_neg (by decide)],
    show parseSign ('-' :: a :: t) = (true, a :: t) from by simp [parseSign],
    show List.isPrefixOf ['I', 'n', 'f', 'i', 'n', 'i', 't', 'y']
      (a :: t) = false from by simp [List.isPrefixOf, hI]]
  simp [takeWhile_digits _ hall, dropWhile_digit_digits _ hall, digitsToNat]

/-- C7 (counterexample): the claim says items with a non-finite or negative
purchase price are dropped, but the generic CSV extractor checks only the
name: a row with name "X" and price cell "-100" is accepted and carries the
negative price -100. -/
theorem csv_accepts_negative_price :
    (csvParseProducts [] [[("name", "X"), ("purchasePrice", "-100")]]).map
        (fun p => p.purchasePrice) = [.val (-100)] ∧
    ¬ (0 : ℚ) ≤ -100 := by
  have hnorm : normalizePrice (.str "-100".toList) = .val (-100) := by
    simp only [normalizePrice]
    rw [show "-100".toList.filter (fun ch => ¬ strippedByNormalize ch) =
          "-100".toList from by decide,
      show jsTrim "-100".toList = '-' :: ['1', '0', '0'] from by decide,
      parseFloat_neg_digits '1' ['0', '0'] (by decide),
      show digitsToNat ['1', '0', '0'] = 100 from by decide]
    norm_num
  constructor
  · have hname : (csvRowToProduct []
        [("name", "X"), ("purchasePrice", "-100")]).name ≠ "" := by decide
    have hstep : csvParseProducts [] [[("name", "X"), ("purchasePrice", "-100")]] =
        [csvRowToProduct [] [("name", "X"), ("purchasePrice", "-100")]] := by
      simp [csvParseProducts, hname]
    rw [hstep]
    simp only [List.map_cons, List.map_nil]
    rw [show (csvRowToProduct []
        [("name", "X"), ("purchasePrice", "-100")]).purchasePrice =
        normalizePrice (.str "-100".toList) from rfl, hnorm]
  · norm_num

/-- C7 (amended): every line item returned by the generic CSV extractor and by
the Ecoring CSV extractor has a non-empty name; rows with an empty or missing
name are silently dropped, never failing the parse of the whole file (at most
one item is produced per input row); no validation of the purchase price is
performed, so a negative or non-finite price passes through. -/
theorem csv_items_have_nonempty_names :
    (∀ (mapping : List (String × String)) (records : List CsvRecord)
        (p : CsvProduct), p ∈ csvParseProducts mapping records → p.name ≠ "") ∧
    (∀ (records : List CsvRecord) (p : EcoringProduct),
        p ∈ ecoringParseProducts records → p.name ≠ "") ∧
    (∀ (mapping : List (String × String)) (records : List CsvRecord),
        (csvParseProducts mapping records).length ≤ records.length) ∧
    (∀ records : List CsvRecord,
        (ecoringParseProducts records).length ≤ records.length) := by
  refine ⟨?_, ?_, ?_, ?_⟩
  · intro mapping records p hp
    simp only [csvParseProducts, List.mem_filterMap] at hp
    obtain ⟨r, _, hr⟩ := hp
    split at hr
    · next hname => rw [← Option.some.inj hr]; exact hname
    · exact absurd hr (by simp)
  · intro records p hp
    simp only [ecoringParseProducts, List.mem_filterMap] at hp
    obtain ⟨r, _, hr⟩ := hp
    split at hr
    · exact absurd hr (by simp)
    · next n hn =>
      split at hr
      · exact absurd hr (by simp)
      · next hne => rw [← Option.some.inj hr]; exact hne
  · intro mapping records
    exact List.length_filterMap_le _ _
  · intro records
    exact List.length_filterMap_le _ _

/-- C7 (witness): the amended theorem applied to a concrete one-row file. -/
theorem csv_items_have_nonempty_names_witness :
    (csvRowToProduct [] [("name", "X")]).name ≠ "" :=
  csv_items_have_nonempty_names.1 [] [[("name", "X")]]
    (csvRowToProduct [] [("name", "X")]) (by decide)

end InventoryHub
